import Mathlib

/-!
# Verification of the Torrent Downloader server

A shallow embedding, in Lean 4, of the parts of the torrent-downloader
server (`part_000`) that the specification talks about: the path gate on
the `/stream/*` and `/files/*` routes, the HTTP range-request handling,
the session store and its engine-event handlers, the magnet-link
validation on `POST /api/download`, the session removal route, and the
recursive directory walker.  Node/JavaScript library behaviour that the
code relies on (POSIX `path.normalize`/`path.join`, `parseInt`,
`Math.round`, `fs.createReadStream` option validation, `Map` semantics,
`encodeURIComponent`) is embedded explicitly where the handlers use it.
All string manipulation is implemented by structural recursion over
`List Char` so that every definition evaluates by kernel reduction.
-/

set_option autoImplicit false
set_option maxRecDepth 100000

namespace TorrentServer

/-! ## String primitives

Structural-recursion models of the JavaScript/Node string operations the
server uses. -/

/-- Test that `pre` is a prefix of `s` (JavaScript `String.prototype.startsWith`). -/
def strStartsWith (s pre : String) : Bool :=
  pre.data.isPrefixOf s.data

/-- Split a character list at every occurrence of `sep`. -/
def splitOnChar (sep : Char) : List Char → List (List Char)
  | [] => [[]]
  | c :: rest =>
    match splitOnChar sep rest with
    | [] => [[]]
    | h :: t => if c = sep then [] :: h :: t else (c :: h) :: t

/-- Split a string at every `sep` (the server only splits on the
one-character separators `"/"` and `"-"`). -/
def strSplit (s : String) (sep : Char) : List String :=
  (splitOnChar sep s.data).map (fun cs => ⟨cs⟩)

/-- Replace the first occurrence of `pat` (JavaScript
`String.prototype.replace` with a non-global regular expression). -/
def replaceFirstChars (pat rep : List Char) : List Char → List Char
  | [] => []
  | c :: rest =>
    if pat ≠ [] ∧ pat.isPrefixOf (c :: rest) then rep ++ (c :: rest).drop pat.length
    else c :: replaceFirstChars pat rep rest

/-- The call `s.replace(/bytes=/, '')` from the range parser. -/
def stripBytesEq (s : String) : String :=
  ⟨replaceFirstChars "bytes=".data [] s.data⟩

/-- The call `s.replace(/%5C/g, '/')` from the directory walker: every occurrence
of the three-character sequence `%5C` becomes `/`. -/
def replacePercent5C : List Char → List Char
  | '%' :: '5' :: 'C' :: rest => '/' :: replacePercent5C rest
  | c :: rest => c :: replacePercent5C rest
  | [] => []

/-! ## POSIX path normalisation (Node `path.normalize` / `path.join`)

The server builds `fullPath = path.join(CONFIG.DOWNLOADS_DIR, filePath)`
and then checks `path.normalize(fullPath).startsWith(CONFIG.DOWNLOADS_DIR)`.
We embed the POSIX resolution of `.` and `..` segments. -/

/-- One step of `..`/`.` segment resolution: the accumulator holds the
already-normalised segments.  `isAbs` tells whether the whole path is
absolute (a leading `..` is dropped at the root of an absolute path). -/
def normStack (isAbs : Bool) (acc : List String) (seg : String) : List String :=
  if seg = "" ∨ seg = "." then acc
  else if seg = ".." then
    match acc.getLast? with
    | some l => if l = ".." then acc ++ [".."] else acc.dropLast
    | none => if isAbs then acc else [".."]
  else acc ++ [seg]

/-- Join path segments with `/` separators. -/
def joinSegs : List String → String
  | [] => ""
  | [s] => s
  | s :: rest => s ++ "/" ++ joinSegs rest

/-- Node's POSIX `path.normalize` (trailing-separator preservation aside,
which no caller in the server depends on). -/
def posixNormalize (s : String) : String :=
  let isAbs := strStartsWith s "/"
  let segs := (strSplit s '/').foldl (normStack isAbs) []
  let body := joinSegs segs
  if isAbs then (if body = "" then "/" else "/" ++ body)
  else (if body = "" then "." else body)

/-- Node's POSIX `path.join a b`: concatenate the non-empty parts with a
separator and normalise the result. -/
def pathJoin (a b : String) : String :=
  if b = "" then posixNormalize a else posixNormalize (a ++ "/" ++ b)

/-- The root `CONFIG.DOWNLOADS_DIR = path.join(__dirname, 'downloads')`, for a
concrete server directory `__dirname = "/srv/torrent"`. -/
def DOWNLOADS_DIR : String := "/srv/torrent/downloads"

/-- The path gate of `GET /stream/*` (lines 371-380 of the server):
`fullPath = path.join(DOWNLOADS_DIR, filePath)`;
`normalizedPath = path.normalize(fullPath)`; reject (400 Invalid file
path) unless `normalizedPath.startsWith(DOWNLOADS_DIR)`; otherwise the
file at `fullPath` is served.  `filePath` is the already
percent-decoded client path (`decodeURIComponent(req.params[0])`). -/
def streamPathGate (filePath : String) : Option String :=
  let fullPath := pathJoin DOWNLOADS_DIR filePath
  let normalizedPath := posixNormalize fullPath
  if strStartsWith normalizedPath DOWNLOADS_DIR then some fullPath else none

/-- The path gate of `GET /files/*` (lines 468-477): textually the same
code as the `/stream/*` gate. -/
def filesPathGate (filePath : String) : Option String :=
  let fullPath := pathJoin DOWNLOADS_DIR filePath
  let normalizedPath := posixNormalize fullPath
  if strStartsWith normalizedPath DOWNLOADS_DIR then some fullPath else none

/-- Confinement to the downloads root in the sense of the specification:
the resolved path is the root itself or lies strictly below it (the
root followed by its own path separator). -/
def confinedToRoot (p : String) : Bool :=
  p == DOWNLOADS_DIR || strStartsWith p (DOWNLOADS_DIR ++ "/")

/-! ## Range streaming (`GET /stream/*`, lines 395-453)

The handler parses `req.headers.range` with
`parts = range.replace(/bytes=/, '').split('-')`,
`start = parseInt(parts[0], 10)`,
`end = parts[1] ? parseInt(parts[1], 10) : fileSize - 1`,
answers 416 when `start >= fileSize || end >= fileSize` (JavaScript
comparisons, false on `NaN`), then calls
`fs.createReadStream(fullPath, { start, end })` — whose option
validation throws synchronously when `start` or `end` is not a
non-negative integer or when `start > end`, landing in the route's
`catch` as a 500 — and finally answers 206 with
`Content-Range: bytes <start>-<end>/<fileSize>` and
`Content-Length: end - start + 1`.  A file's content is a byte list. -/

/-- JavaScript `parseInt(s, 10)`: skip leading whitespace, optional
sign, then the maximal digit prefix; `none` models `NaN`. -/
def jsParseInt (s : String) : Option Int :=
  let cs := s.data.dropWhile (fun c => c.isWhitespace)
  let signAndRest : Int × List Char :=
    match cs with
    | '-' :: rest => (-1, rest)
    | '+' :: rest => (1, rest)
    | _ => (1, cs)
  let digs := signAndRest.2.takeWhile (fun c => c.isDigit)
  if digs.isEmpty then none
  else some (signAndRest.1 * (digs.foldl (fun n c => n * 10 + ((c.toNat : Int) - 48)) 0))

/-- A JavaScript `>=` comparison whose left operand may be `NaN`
(`none`): every comparison with `NaN` is false. -/
def jsGE (a : Option Int) (b : Int) : Bool :=
  match a with
  | none => false
  | some x => b ≤ x

/-- Lines 399-401 of the server: parse the range header into the `start`
and `end` values (`none` models `NaN`; the `end` of a header whose
second part is missing or empty defaults to `fileSize - 1`). -/
def parseRangeHeader (fileSize : Int) (range : String) : Option Int × Option Int :=
  let parts := strSplit (stripBytesEq range) '-'
  let start := jsParseInt (parts.headD "")
  let endv : Option Int :=
    match parts[1]? with
    | some t => if t = "" then some (fileSize - 1) else jsParseInt t
    | none => some (fileSize - 1)
  (start, endv)

/-- Node's `fs.createReadStream(path, { start, end })` on a file with content
`content`: Node validates that `start` and `end` are non-negative
integers with `start ≤ end` (synchronous `ERR_OUT_OF_RANGE` throw
otherwise, `NaN` included) and then delivers the bytes at offsets
`start..end` inclusive, clipped at end of file. -/
def createReadStream (content : List Nat) (start? end? : Option Int) :
    Except Unit (Int × Int × List Nat) :=
  match start?, end? with
  | some st, some en =>
    if 0 ≤ st ∧ 0 ≤ en ∧ st ≤ en then
      .ok (st, en, (content.drop st.toNat).take (en - st + 1).toNat)
    else .error ()
  | _, _ => .error ()

/-- The possible responses of the `GET /stream/*` handler once the path
gate has passed and the file exists. -/
inductive StreamResponse where
  /-- 416 Range Not Satisfiable. -/
  | notSatisfiable416
  /-- 206 with `Content-Range`, `Content-Length` and the streamed bytes. -/
  | ok206 (contentRange : String) (contentLength : Int) (body : List Nat)
  /-- 200 with `Content-Length` and the whole file. -/
  | ok200 (contentLength : Nat) (body : List Nat)
  /-- 500 from the route's `catch` block. -/
  | internalError500
deriving DecidableEq, Repr

/-- Lines 389-453 of the server: serve an existing file of content
`content` under an optional `Range` header. -/
def serveStream (content : List Nat) (range? : Option String) : StreamResponse :=
  let fileSize : Int := content.length
  match range? with
  | none => .ok200 content.length content
  | some range =>
    let parsed := parseRangeHeader fileSize range
    if jsGE parsed.1 fileSize ∨ jsGE parsed.2 fileSize then .notSatisfiable416
    else
      match createReadStream content parsed.1 parsed.2 with
      | .error _ => .internalError500
      | .ok (st, en, body) =>
        .ok206 ("bytes " ++ toString st ++ "-" ++ toString en ++ "/" ++ toString fileSize)
          (en - st + 1) body

/-! ## JavaScript `Map` semantics

`activeDownloads` and `progressIntervals` are JavaScript `Map`s; we model
them as association lists with unique keys (`get`, `set`, `delete`). -/

/-- JavaScript `Map.prototype.get`. -/
def mapGet {α : Type} : List (String × α) → String → Option α
  | [], _ => none
  | (k', v) :: rest, k => if k' = k then some v else mapGet rest k

/-- JavaScript `Map.prototype.set`: replace the value of an existing key, append a
new key. -/
def mapSet {α : Type} : List (String × α) → String → α → List (String × α)
  | [], k, v => [(k, v)]
  | (k', v') :: rest, k, v =>
    if k' = k then (k, v) :: rest else (k', v') :: mapSet rest k v

/-- JavaScript `Map.prototype.delete`: remove the entry of a key (the server's maps
never hold a duplicate key, for which this equals removing the single
entry). -/
def mapDelete {α : Type} : List (String × α) → String → List (String × α)
  | [], _ => []
  | (k', v') :: rest, k =>
    if k' = k then mapDelete rest k else (k', v') :: mapDelete rest k

/-! ## Misc JavaScript helpers used by the handlers -/

/-- JavaScript `Math.round`: nearest integer, halves toward positive
infinity. -/
def jsRound (q : ℚ) : Int := ⌊q + 1 / 2⌋

/-- Is a character left unescaped by `encodeURIComponent`? -/
def isUnescapedURIChar (c : Char) : Bool :=
  c.isAlpha || c.isDigit ||
    (c = '-' || c = '_' || c = '.' || c = '!' || c = '~' || c = '*' ||
     c = '\'' || c = '(' || c = ')')

/-- Upper-case hexadecimal digit of a value below 16. -/
def hexDigit (n : Nat) : Char :=
  if n < 10 then Char.ofNat (48 + n) else Char.ofNat (55 + n)

/-- UTF-8 bytes of a character. -/
def utf8Bytes (c : Char) : List Nat :=
  let n := c.toNat
  if n < 128 then [n]
  else if n < 2048 then [192 + n / 64, 128 + n % 64]
  else if n < 65536 then [224 + n / 4096, 128 + (n / 64) % 64, 128 + n % 64]
  else [240 + n / 262144, 128 + (n / 4096) % 64, 128 + (n / 64) % 64, 128 + n % 64]

/-- JavaScript `encodeURIComponent`: unreserved characters kept, every
other character percent-encoded byte by byte. -/
def encodeURIComponent (s : String) : String :=
  ⟨s.data.foldr
    (fun c acc =>
      if isUnescapedURIChar c then c :: acc
      else (utf8Bytes c).foldr (fun b acc2 => '%' :: hexDigit (b / 16) :: hexDigit (b % 16) :: acc2) acc)
    []⟩

/-! ## The session store and the engine event handlers

`activeDownloads : Map id → download` is the session store;
`progressIntervals : Map id → timer` holds each session's periodic
update timer (a timer is just an opaque handle here).  Engine events are
modelled with the data the handlers read off the `torrent` object at the
moment they run.  Each handler returns the new server state together
with the list of `download-update` payloads emitted via `io.emit`. -/

/-- An entry of `torrent.files`. -/
structure TorrentFile where
  name : String
  length : Nat
  path : String
deriving DecidableEq, Repr

/-- A file entry stored in a session (`downloadUrl` is absent on the
entries built by the `metadata` handler and present on those built by
the `done` handler). -/
structure SessionFile where
  name : String
  size : Nat
  path : String
  downloadUrl : Option String
deriving DecidableEq, Repr

/-- A session store entry (`createDownloadEntry` and the event handlers
define the fields; the `torrent` reference itself is an external handle
with no modelled state). -/
structure Download where
  name : String
  progress : Int
  downloadSpeed : Nat
  uploadSpeed : Nat
  peers : Nat
  status : String
  files : List SessionFile
  size : Nat
  downloaded : Nat
  error : Option String
deriving DecidableEq, Repr

/-- The function `createDownloadEntry` (lines 256-270). -/
def createDownloadEntry : Download :=
  { name := "Loading metadata..."
    progress := 0
    downloadSpeed := 0
    uploadSpeed := 0
    peers := 0
    status := "downloading"
    files := []
    size := 0
    downloaded := 0
    error := none }

/-- The payload of a `download-update` event (`serializeDownload`,
lines 168-182). -/
structure Serialized where
  id : String
  name : String
  progress : Int
  downloadSpeed : Nat
  uploadSpeed : Nat
  peers : Nat
  status : String
  files : List SessionFile
  size : Nat
  downloaded : Nat
  error : Option String
deriving DecidableEq, Repr

/-- The function `serializeDownload` (lines 168-182). -/
def serializeDownload (id : String) (d : Download) : Serialized :=
  { id := id
    name := d.name
    progress := d.progress
    downloadSpeed := d.downloadSpeed
    uploadSpeed := d.uploadSpeed
    peers := d.peers
    status := d.status
    files := d.files
    size := d.size
    downloaded := d.downloaded
    error := d.error }

/-- The mutable module state the handlers touch: the two maps. -/
structure ServerState where
  activeDownloads : List (String × Download)
  progressIntervals : List (String × Nat)
deriving DecidableEq, Repr

/-- The function `cleanupDownload` (lines 242-249): clear and forget the session's
interval if it has one (`clearInterval` itself is an external effect). -/
def cleanupDownload (s : ServerState) (downloadId : String) : ServerState :=
  match mapGet s.progressIntervals downloadId with
  | some _ => { s with progressIntervals := mapDelete s.progressIntervals downloadId }
  | none => s

/-- An engine event for one torrent, carrying the torrent fields the
corresponding handler reads (`torrent.name`, `torrent.length`,
`torrent.files`, `torrent.progress`, the rates, `torrent.numPeers`,
`torrent.downloaded`, the error message). -/
inductive EngineEvent where
  /-- Event `torrent.on('metadata')`. -/
  | metadata (name : String) (length : Nat) (files : List TorrentFile)
  /-- Event `torrent.on('download')`: `fraction` is `torrent.progress`. -/
  | download (fraction : ℚ) (downloadSpeed uploadSpeed numPeers downloaded : Nat)
  /-- Event `torrent.on('done')`. -/
  | done (files : List TorrentFile)
  /-- Event `torrent.on('error')`. -/
  | error (msg : String)
deriving DecidableEq, Repr

/-- The session files built by the `metadata` handler (lines 290-294):
no `downloadUrl`. -/
def metadataFiles (fs : List TorrentFile) : List SessionFile :=
  fs.map (fun f => ⟨f.name, f.length, f.path, none⟩)

/-- The session files built by the `done` handler (lines 322-327):
`downloadUrl` is `/files/${encodeURIComponent(file.path)}`. -/
def doneFiles (fs : List TorrentFile) : List SessionFile :=
  fs.map (fun f => ⟨f.name, f.length, f.path, some ("/files/" ++ encodeURIComponent f.path)⟩)

/-- The four event handlers installed by `setupTorrentEventHandlers`
(lines 281-346), as a transition on the server state returning the
emitted `download-update` payloads. -/
def applyEvent (s : ServerState) (downloadId : String) (ev : EngineEvent) :
    ServerState × List Serialized :=
  match ev with
  | .metadata nm len fs =>
    match mapGet s.activeDownloads downloadId with
    | none => (s, [])
    | some d =>
      let d' := { d with name := nm, size := len, files := metadataFiles fs }
      ({ s with activeDownloads := mapSet s.activeDownloads downloadId d' },
       [serializeDownload downloadId d'])
  | .download frac ds us np dl =>
    match mapGet s.activeDownloads downloadId with
    | none => (s, [])
    | some d =>
      let d' := { d with
        progress := jsRound (frac * 100)
        downloadSpeed := ds
        uploadSpeed := us
        peers := np
        downloaded := dl }
      ({ s with activeDownloads := mapSet s.activeDownloads downloadId d' }, [])
  | .done fs =>
    let s1 := cleanupDownload s downloadId
    match mapGet s1.activeDownloads downloadId with
    | none => (s1, [])
    | some d =>
      let d' := { d with status := "completed", progress := 100, files := doneFiles fs }
      ({ s1 with activeDownloads := mapSet s1.activeDownloads downloadId d' },
       [serializeDownload downloadId d'])
  | .error msg =>
    let s1 := cleanupDownload s downloadId
    match mapGet s1.activeDownloads downloadId with
    | none => (s1, [])
    | some d =>
      let d' := { d with status := "error", error := some msg }
      ({ s1 with activeDownloads := mapSet s1.activeDownloads downloadId d' },
       [serializeDownload downloadId d'])

/-- The periodic interval callback for a session (lines 349-355): emit a
snapshot only for a present, still-`downloading` entry. -/
def progressTick (s : ServerState) (downloadId : String) : List Serialized :=
  match mapGet s.activeDownloads downloadId with
  | some d => if d.status = "downloading" then [serializeDownload downloadId d] else []
  | none => []

/-! ## HTTP handlers on sessions -/

/-- The `POST /api/download` request body's `magnetLink` field: absent,
present but not a string, or a string. -/
inductive MagnetInput where
  | absent
  | nonString
  | str (link : String)
deriving DecidableEq, Repr

/-- The limit `CONFIG.MAX_MAGNET_LENGTH`. -/
def MAX_MAGNET_LENGTH : Nat := 2000

/-- The validator `isValidMagnetLink` (lines 150-160): falsy or non-string values and
over-long strings are invalid, otherwise the link must start with
`magnet:?`. -/
def isValidMagnetLink : MagnetInput → Bool
  | .absent => false
  | .nonString => false
  | .str link =>
    if link = "" then false
    else if MAX_MAGNET_LENGTH < link.length then false
    else strStartsWith link "magnet:?"

/-- The engine handle returned by `torrentClient.add`. -/
structure TorrentHandle where
  infoHash : String
deriving DecidableEq, Repr

/-- Response of `POST /api/download`. -/
inductive PostResponse where
  /-- 400 Invalid magnet link. -/
  | badRequest400
  /-- 200 with `{id, message, infoHash}`. -/
  | ok200 (id : String) (message : String) (infoHash : String)
  /-- 500 Failed to start download. -/
  | serverError500
deriving DecidableEq, Repr

/-- Route `POST /api/download` (lines 526-559): validate the link, then call
`torrentClient.add` (modelled by its result `engine`; a throw lands in
the `catch` as a 500 before any store write), store a fresh entry under
the fresh id `downloadId`, and register the session's interval timer
(`setupTorrentEventHandlers`, line 357). -/
def postDownload (s : ServerState) (input : MagnetInput) (downloadId : String)
    (timer : Nat) (engine : Except String TorrentHandle) : ServerState × PostResponse :=
  if !isValidMagnetLink input then (s, .badRequest400)
  else
    match engine with
    | .error _ => (s, .serverError500)
    | .ok t =>
      ({ activeDownloads := mapSet s.activeDownloads downloadId createDownloadEntry
         progressIntervals := mapSet s.progressIntervals downloadId timer },
       .ok200 downloadId "Download started successfully" t.infoHash)

/-- Response of `DELETE /api/download/:id`. -/
inductive DeleteResponse where
  /-- 404 Download not found. -/
  | notFound404
  /-- 200 Download removed successfully. -/
  | ok200
deriving DecidableEq, Repr

/-- Route `DELETE /api/download/:id` (lines 565-595): 404 on a missing entry;
otherwise clear the interval (`cleanupDownload`), destroy the engine
session (external effect) and delete the store entry. -/
def deleteDownload (s : ServerState) (id : String) : ServerState × DeleteResponse :=
  match mapGet s.activeDownloads id with
  | none => (s, .notFound404)
  | some _ =>
    let s1 := cleanupDownload s id
    ({ s1 with activeDownloads := mapDelete s1.activeDownloads id }, .ok200)

/-! ## Interleavings of the above -/

/-- One observable step of the server: an engine event for some id, an
interval tick for some id, a `DELETE /api/download/:id`, or a
`POST /api/download` (with its fresh id, fresh timer and engine
result). -/
inductive Step where
  | engine (id : String) (ev : EngineEvent)
  | tick (id : String)
  | removeReq (id : String)
  | addReq (input : MagnetInput) (freshId : String) (timer : Nat)
      (engine : Except String TorrentHandle)

/-- Run one step: new state plus emitted `download-update` payloads. -/
def runStep (s : ServerState) : Step → ServerState × List Serialized
  | .engine id ev => applyEvent s id ev
  | .tick id => (s, progressTick s id)
  | .removeReq id => ((deleteDownload s id).1, [])
  | .addReq input fid tm eng => ((postDownload s input fid tm eng).1, [])

/-- Run a list of steps, collecting every emitted payload in order. -/
def runTrace (s : ServerState) : List Step → ServerState × List Serialized
  | [] => (s, [])
  | st :: rest =>
    let r1 := runStep s st
    let r2 := runTrace r1.1 rest
    (r2.1, r1.2 ++ r2.2)

/-- Does a step create a session under the given id?  (Only a
`POST /api/download` whose fresh id is that id can.) -/
def stepAddsId (st : Step) (id : String) : Bool :=
  match st with
  | .addReq _ fid _ _ => fid = id
  | _ => false

/-! ## The directory walker (`walkDirectory`, lines 204-236)

The filesystem under a directory is a tree.  `statOk` on a node models
whether `fs.statSync` on it succeeds; `readOk` on a directory models
whether `fs.readdirSync` of it succeeds.  A failing stat skips the
entry, a failing readdir skips the directory's whole listing (both are
caught and logged in the source). -/

/-- A filesystem node. -/
inductive FSNode where
  | file (size : Nat) (statOk : Bool)
  | dir (entries : List (String × FSNode)) (statOk : Bool) (readOk : Bool)

/-- A row of the listing returned by `walkDirectory`. -/
structure FileEntry where
  name : String
  path : String
  size : Nat
  downloadUrl : String
deriving DecidableEq, Repr

/-- Node's `path.join(basePath, item)` for the relative paths the walker
builds (an empty base yields the item itself). -/
def joinRel (base item : String) : String :=
  if base = "" then item else base ++ "/" ++ item

/-- The `downloadUrl` the walker builds for a file at relative path
`rel`: `/files/${encodeURIComponent(rel).replace(/%5C/g, '/')}`. -/
def walkerUrl (rel : String) : String :=
  "/files/" ++ (⟨replacePercent5C (encodeURIComponent rel).data⟩ : String)

mutual

/-- The walker `walkDirectory(dir, basePath)` (lines 204-236) on the tree rooted at
a node: an unreadable directory contributes nothing (the `readError`
catch), otherwise its entries are processed in order. -/
def walkDirectory : FSNode → String → List FileEntry
  | .file _ _, _ => []
  | .dir entries _ readOk, basePath =>
    if readOk then walkEntries entries basePath else []

/-- The walker's `for` loop over the items of one directory. -/
def walkEntries : List (String × FSNode) → String → List FileEntry
  | [], _ => []
  | (item, child) :: rest, basePath =>
    entryRows item child basePath ++ walkEntries rest basePath

/-- The rows one directory item contributes: an entry whose stat fails
contributes nothing (the `statError` catch), a directory entry
contributes its recursive walk, a file entry contributes one row. -/
def entryRows (item : String) (child : FSNode) (basePath : String) : List FileEntry :=
  match child with
  | .file sz statOk =>
    if statOk then [⟨item, joinRel basePath item, sz, walkerUrl (joinRel basePath item)⟩]
    else []
  | .dir entries statOk readOk =>
    if statOk then walkDirectory (.dir entries statOk readOk) (joinRel basePath item)
    else []

end

mutual

/-- Does every stat and readdir in the tree succeed? -/
def allGood : FSNode → Bool
  | .file _ statOk => statOk
  | .dir entries statOk readOk => statOk && readOk && allGoodEntries entries

/-- Conjunction of `allGood` over every entry of a directory. -/
def allGoodEntries : List (String × FSNode) → Bool
  | [] => true
  | (_, child) :: rest => allGood child && allGoodEntries rest

end

mutual

/-- Modelled from the spec: the listing §4.6 describes — one row for
every non-directory file of the tree, in traversal order, failures
ignored. -/
def fullListing : FSNode → String → List FileEntry
  | .file _ _, _ => []
  | .dir entries _ _, basePath => fullListingEntries entries basePath

/-- The per-directory rows of `fullListing`. -/
def fullListingEntries : List (String × FSNode) → String → List FileEntry
  | [], _ => []
  | (item, child) :: rest, basePath =>
    fullEntryRows item child basePath ++ fullListingEntries rest basePath

/-- The rows one directory item contributes to `fullListing`. -/
def fullEntryRows (item : String) (child : FSNode) (basePath : String) : List FileEntry :=
  match child with
  | .file sz _ => [⟨item, joinRel basePath item, sz, walkerUrl (joinRel basePath item)⟩]
  | .dir entries statOk readOk =>
    fullListing (.dir entries statOk readOk) (joinRel basePath item)

end

/-- Does an entry fail (stat failure, or an unreadable directory)?  Such
an entry is exactly one the walker skips. -/
def entryFails : FSNode → Bool
  | .file _ statOk => !statOk
  | .dir _ statOk readOk => !statOk || !readOk

theorem walkDirectory_file (sz : Nat) (stOk : Bool) (base : String) :
    walkDirectory (.file sz stOk) base = [] := by
  rw [walkDirectory.eq_def]

theorem walkDirectory_dir (entries : List (String × FSNode)) (stOk readOk : Bool)
    (base : String) :
    walkDirectory (.dir entries stOk readOk) base =
      if readOk then walkEntries entries base else [] := by
  rw [walkDirectory.eq_def]

theorem walkEntries_nil (base : String) : walkEntries [] base = [] := by
  rw [walkEntries.eq_def]

theorem walkEntries_cons (item : String) (child : FSNode)
    (rest : List (String × FSNode)) (base : String) :
    walkEntries ((item, child) :: rest) base =
      entryRows item child base ++ walkEntries rest base := by
  rw [walkEntries.eq_def]

theorem entryRows_file (item : String) (sz : Nat) (stOk : Bool) (base : String) :
    entryRows item (.file sz stOk) base =
      if stOk then [⟨item, joinRel base item, sz, walkerUrl (joinRel base item)⟩]
      else [] := by
  rw [entryRows.eq_def]

theorem entryRows_dir (item : String) (entries : List (String × FSNode))
    (stOk readOk : Bool) (base : String) :
    entryRows item (.dir entries stOk readOk) base =
      if stOk then walkDirectory (.dir entries stOk readOk) (joinRel base item)
      else [] := by
  rw [entryRows.eq_def]

theorem allGood_file (sz : Nat) (stOk : Bool) : allGood (.file sz stOk) = stOk := by
  rw [allGood.eq_def]

theorem allGood_dir (entries : List (String × FSNode)) (stOk readOk : Bool) :
    allGood (.dir entries stOk readOk) = (stOk && readOk && allGoodEntries entries) := by
  rw [allGood.eq_def]

theorem allGoodEntries_nil : allGoodEntries [] = true := by
  rw [allGoodEntries.eq_def]

theorem allGoodEntries_cons (item : String) (child : FSNode)
    (rest : List (String × FSNode)) :
    allGoodEntries ((item, child) :: rest) = (allGood child && allGoodEntries rest) := by
  rw [allGoodEntries.eq_def]

theorem fullListing_file (sz : Nat) (stOk : Bool) (base : String) :
    fullListing (.file sz stOk) base = [] := by
  rw [fullListing.eq_def]

theorem fullListing_dir (entries : List (String × FSNode)) (stOk readOk : Bool)
    (base : String) :
    fullListing (.dir entries stOk readOk) base = fullListingEntries entries base := by
  rw [fullListing.eq_def]

theorem fullListingEntries_nil (base : String) : fullListingEntries [] base = [] := by
  rw [fullListingEntries.eq_def]

theorem fullListingEntries_cons (item : String) (child : FSNode)
    (rest : List (String × FSNode)) (base : String) :
    fullListingEntries ((item, child) :: rest) base =
      fullEntryRows item child base ++ fullListingEntries rest base := by
  rw [fullListingEntries.eq_def]

theorem fullEntryRows_file (item : String) (sz : Nat) (stOk : Bool) (base : String) :
    fullEntryRows item (.file sz stOk) base =
      [⟨item, joinRel base item, sz, walkerUrl (joinRel base item)⟩] := by
  rw [fullEntryRows.eq_def]

theorem fullEntryRows_dir (item : String) (entries : List (String × FSNode))
    (stOk readOk : Bool) (base : String) :
    fullEntryRows item (.dir entries stOk readOk) base =
      fullListing (.dir entries stOk readOk) (joinRel base item) := by
  rw [fullEntryRows.eq_def]

/-! ## Map and state lemmas -/

theorem mapGet_mapSet_self {α : Type} (m : List (String × α)) (k : String) (v : α) :
    mapGet (mapSet m k v) k = some v := by
  induction m with
  | nil => simp [mapGet, mapSet]
  | cons e rest ih =>
    by_cases h : e.1 = k
    · simp [mapSet, h, mapGet]
    · simpa [mapSet, h, mapGet] using ih

theorem mapGet_mapSet_ne {α : Type} (m : List (String × α)) (k k' : String) (v : α)
    (h : k ≠ k') : mapGet (mapSet m k v) k' = mapGet m k' := by
  induction m with
  | nil => simp [mapGet, mapSet, h]
  | cons e rest ih =>
    by_cases he : e.1 = k <;> by_cases he' : e.1 = k' <;>
      simp_all [mapSet, mapGet, Ne.symm h]

theorem mapGet_mapDelete_self {α : Type} (m : List (String × α)) (k : String) :
    mapGet (mapDelete m k) k = none := by
  induction m with
  | nil => simp [mapGet, mapDelete]
  | cons e rest ih =>
    by_cases h : e.1 = k
    · simpa [mapDelete, h] using ih
    · simpa [mapDelete, h, mapGet] using ih

theorem mapGet_mapDelete_ne {α : Type} (m : List (String × α)) (k k' : String)
    (h : k ≠ k') : mapGet (mapDelete m k) k' = mapGet m k' := by
  induction m with
  | nil => simp [mapDelete]
  | cons e rest ih =>
    by_cases he : e.1 = k <;> by_cases he' : e.1 = k' <;>
      simp_all [mapDelete, mapGet, Ne.symm h]

theorem cleanupDownload_activeDownloads (s : ServerState) (id : String) :
    (cleanupDownload s id).activeDownloads = s.activeDownloads := by
  unfold cleanupDownload
  cases mapGet s.progressIntervals id <;> rfl

theorem cleanupDownload_interval_none (s : ServerState) (id : String) :
    mapGet (cleanupDownload s id).progressIntervals id = none := by
  unfold cleanupDownload
  cases h : mapGet s.progressIntervals id with
  | none => simpa using h
  | some t => simpa using mapGet_mapDelete_self s.progressIntervals id

theorem cleanupDownload_of_interval_none (s : ServerState) (id : String)
    (h : mapGet s.progressIntervals id = none) : cleanupDownload s id = s := by
  unfold cleanupDownload
  rw [h]

theorem filesUrl_ne_empty (x : String) : ("/files/" ++ x) ≠ "" := by
  intro hcontra
  have hlen := congrArg String.length hcontra
  rw [String.length_append] at hlen
  have h7 : ("/files/" : String).length = 7 := rfl
  have h0 : ("" : String).length = 0 := rfl
  omega

theorem applyEvent_missing_noop (s : ServerState) (id : String) (ev : EngineEvent)
    (h : mapGet s.activeDownloads id = none) :
    (applyEvent s id ev).1.activeDownloads = s.activeDownloads ∧
    (applyEvent s id ev).2 = [] := by
  have hc : mapGet (cleanupDownload s id).activeDownloads id = none := by
    rw [cleanupDownload_activeDownloads]; exact h
  cases ev <;> simp [applyEvent, h, hc, cleanupDownload_activeDownloads]

theorem progressTick_missing (s : ServerState) (id : String)
    (h : mapGet s.activeDownloads id = none) : progressTick s id = [] := by
  simp [progressTick, h]

theorem applyEvent_other_get (s : ServerState) (id' id : String) (ev : EngineEvent)
    (h : id' ≠ id) :
    mapGet (applyEvent s id' ev).1.activeDownloads id = mapGet s.activeDownloads id := by
  cases ev <;>
    · simp only [applyEvent]
      first
      | -- the `metadata` and `download` handlers look the store up directly
        cases hm : mapGet s.activeDownloads id' <;>
          simp [hm, mapGet_mapSet_ne _ _ _ _ h]
      | -- the `done` and `error` handlers run `cleanupDownload` first
        cases hm : mapGet (cleanupDownload s id').activeDownloads id' <;>
          simp [hm, mapGet_mapSet_ne _ _ _ _ h, cleanupDownload_activeDownloads]

theorem applyEvent_emit_ids (s : ServerState) (id' : String) (ev : EngineEvent) :
    ∀ e ∈ (applyEvent s id' ev).2, e.id = id' := by
  cases ev with
  | metadata nm len fs =>
    simp only [applyEvent]
    cases hm : mapGet s.activeDownloads id' <;> simp [hm, serializeDownload]
  | download frac ds us np dl =>
    simp only [applyEvent]
    cases hm : mapGet s.activeDownloads id' <;> simp [hm, serializeDownload]
  | done fs =>
    simp only [applyEvent]
    cases hm : mapGet (cleanupDownload s id').activeDownloads id' <;>
      simp [hm, serializeDownload]
  | error msg =>
    simp only [applyEvent]
    cases hm : mapGet (cleanupDownload s id').activeDownloads id' <;>
      simp [hm, serializeDownload]

theorem progressTick_emit_ids (s : ServerState) (id' : String) :
    ∀ e ∈ progressTick s id', e.id = id' := by
  unfold progressTick
  cases hm : mapGet s.activeDownloads id' with
  | none => simp
  | some d =>
    by_cases hs : d.status = "downloading" <;> simp [hs, serializeDownload]

theorem deleteDownload_other_get (s : ServerState) (id' id : String) (h : id' ≠ id) :
    mapGet (deleteDownload s id').1.activeDownloads id = mapGet s.activeDownloads id := by
  unfold deleteDownload
  cases hm : mapGet s.activeDownloads id' <;>
    simp [hm, mapGet_mapDelete_ne _ _ _ h, cleanupDownload_activeDownloads]

theorem postDownload_other_get (s : ServerState) (input : MagnetInput) (fid : String)
    (tm : Nat) (eng : Except String TorrentHandle) (id : String) (h : fid ≠ id) :
    mapGet (postDownload s input fid tm eng).1.activeDownloads id =
      mapGet s.activeDownloads id := by
  unfold postDownload
  cases hv : isValidMagnetLink input <;> cases eng <;>
    simp [mapGet_mapSet_ne _ _ _ _ h]

theorem runStep_missing (s : ServerState) (id : String) (st : Step)
    (h : mapGet s.activeDownloads id = none) (hadd : stepAddsId st id = false) :
    mapGet (runStep s st).1.activeDownloads id = none ∧
    ∀ e ∈ (runStep s st).2, e.id ≠ id := by
  cases st with
  | engine id' ev =>
    by_cases hid : id' = id
    · subst hid
      obtain ⟨hact, hemit⟩ := applyEvent_missing_noop s id' ev h
      constructor
      · simpa [runStep, hact] using h
      · simp [runStep, hemit]
    · constructor
      · rw [runStep, applyEvent_other_get s id' id ev hid]
        exact h
      · intro e he
        have := applyEvent_emit_ids s id' ev e he
        simp [this, hid]
  | tick id' =>
    refine ⟨h, ?_⟩
    by_cases hid : id' = id
    · subst hid
      simp [runStep, progressTick_missing s id' h]
    · intro e he
      have := progressTick_emit_ids s id' e he
      simp [this, hid]
  | removeReq id' =>
    refine ⟨?_, by simp [runStep]⟩
    by_cases hid : id' = id
    · subst hid
      simp [runStep, deleteDownload, h]
    · rw [runStep, deleteDownload_other_get s id' id hid]
      exact h
  | addReq input fid tm eng =>
    have hfid : fid ≠ id := by
      simpa [stepAddsId] using hadd
    refine ⟨?_, by simp [runStep]⟩
    rw [runStep, postDownload_other_get s input fid tm eng id hfid]
    exact h

theorem runTrace_missing (s : ServerState) (id : String) (trace : List Step)
    (h : mapGet s.activeDownloads id = none)
    (hadd : trace.all (fun st => !stepAddsId st id) = true) :
    ∀ e ∈ (runTrace s trace).2, e.id ≠ id := by
  induction trace generalizing s with
  | nil => simp [runTrace]
  | cons st rest ih =>
    rw [List.all_cons, Bool.and_eq_true] at hadd
    have hstep := runStep_missing s id st h (by simpa using hadd.1)
    intro e he
    rw [runTrace] at he
    simp only [List.mem_append] at he
    rcases he with he | he
    · exact hstep.2 e he
    · exact ih (runStep s st).1 hstep.1 hadd.2 e he

/-! ## Claim theorems -/

/-- C8: for every session id with no entry in the store, every engine
event handler applied to that id leaves the session store unchanged
(no entry created, no other session mutated), emits no update, and the
interval callback emits nothing either; all handlers are total
functions (nothing throws). -/
theorem engine_events_noop_on_missing_session (s : ServerState) (id : String)
    (ev : EngineEvent) (h : mapGet s.activeDownloads id = none) :
    (applyEvent s id ev).1.activeDownloads = s.activeDownloads ∧
    (applyEvent s id ev).2 = [] ∧
    progressTick s id = [] :=
  ⟨(applyEvent_missing_noop s id ev h).1, (applyEvent_missing_noop s id ev h).2,
   progressTick_missing s id h⟩

/-- Witness for C8 at a concrete state with no entry for id `a`. -/
theorem engine_events_noop_on_missing_session_witness :
    mapGet (ServerState.mk [("b", createDownloadEntry)] [("a", 1)]).activeDownloads "a"
      = none ∧
    ((applyEvent (ServerState.mk [("b", createDownloadEntry)] [("a", 1)]) "a"
        (.error "boom")).1.activeDownloads
      = (ServerState.mk [("b", createDownloadEntry)] [("a", 1)]).activeDownloads ∧
     (applyEvent (ServerState.mk [("b", createDownloadEntry)] [("a", 1)]) "a"
        (.error "boom")).2 = [] ∧
     progressTick (ServerState.mk [("b", createDownloadEntry)] [("a", 1)]) "a" = []) :=
  ⟨by decide,
   engine_events_noop_on_missing_session _ "a" (.error "boom") (by decide)⟩

/-- C5: applying a progress (`download`) event to a session in status
`downloading` sets `progress` to `round(100 * downloadedBytes /
totalBytes)` (via the engine invariant `torrent.progress = downloaded /
length`), updates the rate, peer and byte counters, and leaves the
status field at `downloading`. -/
theorem progress_event_updates_counters (s : ServerState) (id : String) (d : Download)
    (frac : ℚ) (ds us np dl tot : Nat)
    (hget : mapGet s.activeDownloads id = some d)
    (hstatus : d.status = "downloading")
    (hfrac : frac = (dl : ℚ) / (tot : ℚ)) :
    mapGet (applyEvent s id (.download frac ds us np dl)).1.activeDownloads id =
      some { d with progress := jsRound (100 * (dl : ℚ) / (tot : ℚ)),
                    downloadSpeed := ds, uploadSpeed := us, peers := np,
                    downloaded := dl } ∧
    (mapGet (applyEvent s id (.download frac ds us np dl)).1.activeDownloads id).map
        Download.status = some "downloading" ∧
    (applyEvent s id (.download frac ds us np dl)).2 = [] := by
  have harg : frac * 100 = 100 * (dl : ℚ) / (tot : ℚ) := by rw [hfrac]; ring
  have hmain :
      mapGet (applyEvent s id (.download frac ds us np dl)).1.activeDownloads id =
        some { d with progress := jsRound (100 * (dl : ℚ) / (tot : ℚ)),
                      downloadSpeed := ds, uploadSpeed := us, peers := np,
                      downloaded := dl } := by
    simp [applyEvent, hget, harg, mapGet_mapSet_self]
  refine ⟨hmain, ?_, ?_⟩
  · rw [hmain]
    simp [hstatus]
  · simp [applyEvent, hget]

/-- Witness for C5: a concrete downloading session receiving a progress
event with `downloaded = 7`, `total = 10`. -/
theorem progress_event_updates_counters_witness :
    (mapGet (ServerState.mk [("a", createDownloadEntry)] [("a", 1)]).activeDownloads "a"
       = some createDownloadEntry ∧
     createDownloadEntry.status = "downloading") ∧
    (mapGet (applyEvent (ServerState.mk [("a", createDownloadEntry)] [("a", 1)]) "a"
        (.download (((7 : Nat) : ℚ) / ((10 : Nat) : ℚ)) 3 4 5 7)).1.activeDownloads "a" =
      some { createDownloadEntry with
               progress := jsRound (100 * ((7 : Nat) : ℚ) / ((10 : Nat) : ℚ)),
               downloadSpeed := 3, uploadSpeed := 4, peers := 5, downloaded := 7 } ∧
     (mapGet (applyEvent (ServerState.mk [("a", createDownloadEntry)] [("a", 1)]) "a"
        (.download (((7 : Nat) : ℚ) / ((10 : Nat) : ℚ)) 3 4 5 7)).1.activeDownloads "a").map
        Download.status = some "downloading" ∧
     (applyEvent (ServerState.mk [("a", createDownloadEntry)] [("a", 1)]) "a"
        (.download (((7 : Nat) : ℚ) / ((10 : Nat) : ℚ)) 3 4 5 7)).2 = []) :=
  ⟨⟨by decide, rfl⟩,
   progress_event_updates_counters _ "a" createDownloadEntry _ 3 4 5 7 10
     (by decide) rfl rfl⟩

/-- C6: applying a `done` event to a live session sets its status to
`completed`, pins `progress` to 100, rebuilds the files list with a
non-empty `downloadUrl` on every entry, clears the session's periodic
interval, and emits exactly one immediate update push for the session. -/
theorem done_event_completes_session (s : ServerState) (id : String) (d : Download)
    (fs : List TorrentFile) (hget : mapGet s.activeDownloads id = some d) :
    mapGet (applyEvent s id (.done fs)).1.activeDownloads id =
      some { d with status := "completed", progress := 100, files := doneFiles fs } ∧
    (∀ sf ∈ doneFiles fs, ∃ u, sf.downloadUrl = some u ∧ u ≠ "") ∧
    mapGet (applyEvent s id (.done fs)).1.progressIntervals id = none ∧
    (applyEvent s id (.done fs)).2 =
      [serializeDownload id
        { d with status := "completed", progress := 100, files := doneFiles fs }] := by
  have hc : mapGet (cleanupDownload s id).activeDownloads id = some d := by
    rw [cleanupDownload_activeDownloads]; exact hget
  refine ⟨?_, ?_, ?_, ?_⟩
  · simp [applyEvent, hc, mapGet_mapSet_self]
  · intro sf hsf
    simp only [doneFiles, List.mem_map] at hsf
    obtain ⟨f, -, rfl⟩ := hsf
    exact ⟨_, rfl, filesUrl_ne_empty _⟩
  · simp only [applyEvent, hc]
    exact cleanupDownload_interval_none s id
  · simp [applyEvent, hc]

/-- Witness for C6 at a concrete live session with one torrent file. -/
theorem done_event_completes_session_witness :
    mapGet (ServerState.mk [("a", createDownloadEntry)] [("a", 1)]).activeDownloads "a"
      = some createDownloadEntry ∧
    (mapGet (applyEvent (ServerState.mk [("a", createDownloadEntry)] [("a", 1)]) "a"
        (.done [⟨"movie.mp4", 5, "show/movie.mp4"⟩])).1.activeDownloads "a" =
      some { createDownloadEntry with
               status := "completed", progress := 100,
               files := doneFiles [⟨"movie.mp4", 5, "show/movie.mp4"⟩] } ∧
     (∀ sf ∈ doneFiles [⟨"movie.mp4", (5 : Nat), "show/movie.mp4"⟩],
        ∃ u, sf.downloadUrl = some u ∧ u ≠ "") ∧
     mapGet (applyEvent (ServerState.mk [("a", createDownloadEntry)] [("a", 1)]) "a"
        (.done [⟨"movie.mp4", 5, "show/movie.mp4"⟩])).1.progressIntervals "a" = none ∧
     (applyEvent (ServerState.mk [("a", createDownloadEntry)] [("a", 1)]) "a"
        (.done [⟨"movie.mp4", 5, "show/movie.mp4"⟩])).2 =
       [serializeDownload "a"
         { createDownloadEntry with
             status := "completed", progress := 100,
             files := doneFiles [⟨"movie.mp4", 5, "show/movie.mp4"⟩] }]) :=
  ⟨by decide,
   done_event_completes_session _ "a" createDownloadEntry
     [⟨"movie.mp4", 5, "show/movie.mp4"⟩] (by decide)⟩

/-- C3 counterexample: a session whose status is `completed` is changed
by a subsequently applied engine `error` event — the stored state moves
to status `error`, refuting the claim that no event changes a terminal
session's state. -/
theorem terminal_error_event_counterexample :
    (applyEvent
        (ServerState.mk [("a", { createDownloadEntry with status := "completed", progress := 100 })] [])
        "a" (.error "boom")).1.activeDownloads ≠
      (ServerState.mk [("a", { createDownloadEntry with status := "completed", progress := 100 })] []).activeDownloads ∧
    (mapGet (applyEvent
        (ServerState.mk [("a", { createDownloadEntry with status := "completed", progress := 100 })] [])
        "a" (.error "boom")).1.activeDownloads "a").map Download.status = some "error" := by
  exact ⟨by decide, by decide⟩

/-- C3 (amended): the event handlers gate only on the presence of the
store entry, never on its status: an `error` event applied to a
`completed` session moves its status to `error`, and a `download` event
applied to a terminal session still updates its counters (leaving the
status field itself unchanged). -/
theorem terminal_sessions_still_mutate (s : ServerState) (id : String) (d : Download)
    (msg : String) (frac : ℚ) (ds us np dl : Nat)
    (hget : mapGet s.activeDownloads id = some d)
    (hstatus : d.status = "completed") :
    mapGet (applyEvent s id (.error msg)).1.activeDownloads id =
      some { d with status := "error", error := some msg } ∧
    mapGet (applyEvent s id (.download frac ds us np dl)).1.activeDownloads id =
      some { d with progress := jsRound (frac * 100), downloadSpeed := ds,
                    uploadSpeed := us, peers := np, downloaded := dl } ∧
    (mapGet (applyEvent s id (.download frac ds us np dl)).1.activeDownloads id).map
        Download.status = some "completed" := by
  have hc : mapGet (cleanupDownload s id).activeDownloads id = some d := by
    rw [cleanupDownload_activeDownloads]; exact hget
  have hdl :
      mapGet (applyEvent s id (.download frac ds us np dl)).1.activeDownloads id =
        some { d with progress := jsRound (frac * 100), downloadSpeed := ds,
                      uploadSpeed := us, peers := np, downloaded := dl } := by
    simp [applyEvent, hget, mapGet_mapSet_self]
  refine ⟨?_, hdl, ?_⟩
  · simp [applyEvent, hc, mapGet_mapSet_self]
  · rw [hdl]
    simp [hstatus]

/-- Witness for the amended C3 at a concrete completed session. -/
theorem terminal_sessions_still_mutate_witness :
    (mapGet (ServerState.mk [("a", { createDownloadEntry with status := "completed", progress := 100 })] []).activeDownloads "a"
       = some { createDownloadEntry with status := "completed", progress := 100 } ∧
     ({ createDownloadEntry with status := "completed", progress := 100 } : Download).status
       = "completed") ∧
    mapGet (applyEvent
        (ServerState.mk [("a", { createDownloadEntry with status := "completed", progress := 100 })] [])
        "a" (.error "late")).1.activeDownloads "a" =
      some { createDownloadEntry with
               status := "error", progress := 100,
               error := some "late" } :=
  ⟨⟨by decide, rfl⟩,
   (terminal_sessions_still_mutate
     (ServerState.mk
       [("a", { createDownloadEntry with status := "completed", progress := 100 })] [])
     "a" { createDownloadEntry with status := "completed", progress := 100 }
     "late" 0 0 0 0 0 (by decide) rfl).1⟩

/-- C7: `POST /api/download` answers 400 without touching the store when
`magnetLink` is absent, not a string, empty or not starting with
`magnet:?`, or longer than 2000 characters; on a valid link it stores a
fresh entry under the fresh id and answers `{id, message, infoHash}`,
and answers 500 with the store untouched when the engine add fails. -/
theorem post_download_validation (s : ServerState) (fid : String) (tm : Nat)
    (eng : Except String TorrentHandle) :
    (postDownload s .absent fid tm eng = (s, .badRequest400)) ∧
    (postDownload s .nonString fid tm eng = (s, .badRequest400)) ∧
    (∀ link : String, strStartsWith link "magnet:?" = false →
        postDownload s (.str link) fid tm eng = (s, .badRequest400)) ∧
    (∀ link : String, MAX_MAGNET_LENGTH < link.length →
        postDownload s (.str link) fid tm eng = (s, .badRequest400)) ∧
    (∀ (link : String) (t : TorrentHandle),
        isValidMagnetLink (.str link) = true → eng = .ok t →
        (postDownload s (.str link) fid tm eng).2 =
            .ok200 fid "Download started successfully" t.infoHash ∧
        mapGet (postDownload s (.str link) fid tm eng).1.activeDownloads fid =
            some createDownloadEntry) ∧
    (∀ (link : String) (e : String),
        isValidMagnetLink (.str link) = true → eng = .error e →
        postDownload s (.str link) fid tm eng = (s, .serverError500)) := by
  refine ⟨?_, ?_, ?_, ?_, ?_, ?_⟩
  · simp [postDownload, isValidMagnetLink]
  · simp [postDownload, isValidMagnetLink]
  · intro link hsw
    by_cases h0 : link = "" <;>
      by_cases hlen : MAX_MAGNET_LENGTH < link.length <;>
        simp [postDownload, isValidMagnetLink, h0, hlen, hsw]
  · intro link hlen
    by_cases h0 : link = "" <;>
      simp [postDownload, isValidMagnetLink, h0, hlen]
  · intro link t hvalid henq
    subst henq
    refine ⟨?_, ?_⟩ <;> simp [postDownload, hvalid, mapGet_mapSet_self]
  · intro link e hvalid henq
    subst henq
    simp [postDownload, hvalid]

/-- Witness for C7: a concrete valid magnet link with a successful
engine add, plus a concrete rejected link. -/
theorem post_download_validation_witness :
    (isValidMagnetLink (.str "magnet:?xt=urn:btih:VALIDHASH") = true ∧
     strStartsWith "http://example.org" "magnet:?" = false) ∧
    ((postDownload (ServerState.mk [] []) (.str "magnet:?xt=urn:btih:VALIDHASH")
        "id1" 1 (.ok ⟨"abcd"⟩)).2 = .ok200 "id1" "Download started successfully" "abcd" ∧
     mapGet (postDownload (ServerState.mk [] []) (.str "magnet:?xt=urn:btih:VALIDHASH")
        "id1" 1 (.ok ⟨"abcd"⟩)).1.activeDownloads "id1" = some createDownloadEntry) ∧
    postDownload (ServerState.mk [] []) (.str "http://example.org") "id1" 1
        (.ok ⟨"abcd"⟩) = (ServerState.mk [] [], .badRequest400) :=
  ⟨⟨by decide, by decide⟩,
   (post_download_validation (ServerState.mk [] []) "id1" 1 (.ok ⟨"abcd"⟩)).2.2.2.2.1
     "magnet:?xt=urn:btih:VALIDHASH" ⟨"abcd"⟩ (by decide) rfl,
   (post_download_validation (ServerState.mk [] []) "id1" 1 (.ok ⟨"abcd"⟩)).2.2.1
     "http://example.org" (by decide)⟩

/-- C4: once `DELETE /api/download/:id` succeeds, the session's interval
is stopped synchronously during removal and its store entry is gone;
the teardown is not repeatable (a second `cleanupDownload` is a no-op);
every stray engine event or interval tick for the removed id no-ops
without emitting; and no later trace of steps (none of which re-creates
the id) ever emits a `download-update` carrying that id. -/
theorem delete_stops_updates (s : ServerState) (id : String) (d : Download)
    (trace : List Step)
    (hget : mapGet s.activeDownloads id = some d)
    (hadd : trace.all (fun st => !stepAddsId st id) = true) :
    (deleteDownload s id).2 = .ok200 ∧
    mapGet (deleteDownload s id).1.progressIntervals id = none ∧
    mapGet (deleteDownload s id).1.activeDownloads id = none ∧
    cleanupDownload (deleteDownload s id).1 id = (deleteDownload s id).1 ∧
    (∀ ev : EngineEvent, (applyEvent (deleteDownload s id).1 id ev).2 = []) ∧
    progressTick (deleteDownload s id).1 id = [] ∧
    (∀ e ∈ (runTrace (deleteDownload s id).1 trace).2, e.id ≠ id) := by
  have hresp : (deleteDownload s id).2 = .ok200 := by
    simp [deleteDownload, hget]
  have hint : mapGet (deleteDownload s id).1.progressIntervals id = none := by
    simp only [deleteDownload, hget]
    exact cleanupDownload_interval_none s id
  have hact : mapGet (deleteDownload s id).1.activeDownloads id = none := by
    simp only [deleteDownload, hget]
    exact mapGet_mapDelete_self _ id
  refine ⟨hresp, hint, hact, cleanupDownload_of_interval_none _ id hint,
    fun ev => (applyEvent_missing_noop _ id ev hact).2,
    progressTick_missing _ id hact,
    runTrace_missing _ id trace hact hadd⟩

/-- Witness for C4: a concrete removal followed by a stray error event,
a stray tick, and activity of another session. -/
theorem delete_stops_updates_witness :
    (mapGet (ServerState.mk [("a", createDownloadEntry), ("b", createDownloadEntry)]
        [("a", 1), ("b", 2)]).activeDownloads "a" = some createDownloadEntry ∧
     ([Step.engine "a" (.error "late"), Step.tick "a",
       Step.engine "b" (.metadata "n" 9 []), Step.tick "b",
       Step.removeReq "a"].all (fun st => !stepAddsId st "a") = true)) ∧
    (∀ e ∈ (runTrace (deleteDownload
        (ServerState.mk [("a", createDownloadEntry), ("b", createDownloadEntry)]
          [("a", 1), ("b", 2)]) "a").1
        [Step.engine "a" (.error "late"), Step.tick "a",
         Step.engine "b" (.metadata "n" 9 []), Step.tick "b",
         Step.removeReq "a"]).2, e.id ≠ "a") :=
  ⟨⟨by decide, by decide⟩,
   (delete_stops_updates
     (ServerState.mk [("a", createDownloadEntry), ("b", createDownloadEntry)]
       [("a", 1), ("b", 2)]) "a" createDownloadEntry
     [Step.engine "a" (.error "late"), Step.tick "a",
      Step.engine "b" (.metadata "n" 9 []), Step.tick "b",
      Step.removeReq "a"] (by decide) (by decide)).2.2.2.2.2.2⟩

/-- C1 counterexample: the gate's prefix check does not include the
root's path separator and does not reject every escape.  The request
path `../downloads-evil/secret` normalises to the sibling directory
`/srv/torrent/downloads-evil/secret`, which is not confined to the
root, yet both gates accept it; and `/etc/passwd` is not rejected
either — it is joined beneath the root instead. -/
theorem path_gate_counterexample :
    streamPathGate "../downloads-evil/secret" = some "/srv/torrent/downloads-evil/secret" ∧
    filesPathGate "../downloads-evil/secret" = some "/srv/torrent/downloads-evil/secret" ∧
    confinedToRoot "/srv/torrent/downloads-evil/secret" = false ∧
    streamPathGate "/etc/passwd" = some "/srv/torrent/downloads/etc/passwd" :=
  ⟨by decide, by decide, by decide, by decide⟩

/-- C1 (amended): both gates answer 400 exactly when the normalised
joined path does not have the downloads root as a plain string prefix
(no separator appended).  Consequently `../../etc/passwd` and
`a/../../b` are rejected and `sub/dir/file.mp4` resolves under the
root; but `/etc/passwd` is accepted (it resolves beneath the root,
to a non-existent file), and a path normalising into the sibling
directory `downloads-evil` is accepted although it escapes the root. -/
theorem path_gate_amended :
    (∀ p : String,
        streamPathGate p = none ↔
          strStartsWith (posixNormalize (pathJoin DOWNLOADS_DIR p)) DOWNLOADS_DIR = false) ∧
    (∀ p : String, filesPathGate p = streamPathGate p) ∧
    streamPathGate "../../etc/passwd" = none ∧
    streamPathGate "a/../../b" = none ∧
    streamPathGate "sub/dir/file.mp4" = some "/srv/torrent/downloads/sub/dir/file.mp4" ∧
    confinedToRoot "/srv/torrent/downloads/sub/dir/file.mp4" = true ∧
    streamPathGate "/etc/passwd" = some "/srv/torrent/downloads/etc/passwd" ∧
    confinedToRoot "/srv/torrent/downloads/etc/passwd" = true ∧
    streamPathGate "../downloads-evil/secret" = some "/srv/torrent/downloads-evil/secret" ∧
    confinedToRoot "/srv/torrent/downloads-evil/secret" = false := by
  refine ⟨?_, ?_, by decide, by decide, by decide, by decide, by decide, by decide,
    by decide, by decide⟩
  · intro p
    unfold streamPathGate
    cases h : strStartsWith (posixNormalize (pathJoin DOWNLOADS_DIR p)) DOWNLOADS_DIR <;>
      simp [h]
  · intro p
    rfl

/-- C2 counterexample: for a 10-byte file, the inverted range
`bytes=7-3` parses to `start = 7`, `end = 3`, both below the file size
(so no 416 is produced), yet the handler answers 500 — the read-stream
construction rejects `start > end` — and not the claimed 206. -/
theorem stream_range_inverted_counterexample :
    parseRangeHeader ((List.replicate 10 7 : List Nat).length : Int) "bytes=7-3"
      = (some 7, some 3) ∧
    jsGE (some 7) ((List.replicate 10 7 : List Nat).length : Int) = false ∧
    jsGE (some 3) ((List.replicate 10 7 : List Nat).length : Int) = false ∧
    serveStream (List.replicate 10 7) (some "bytes=7-3") = .internalError500 :=
  ⟨by decide, by decide, by decide, by decide⟩

/-- C2 (amended): for an existing file served with a parsed range
`start`-`end` (`end` defaulting to `fileSize - 1`), the handler answers
416 exactly as claimed when `start ≥ fileSize` or `end ≥ fileSize`;
when both are below the file size the claimed 206 response — with
`Content-Range: bytes start-end/fileSize`, `Content-Length: end - start
+ 1`, and exactly the bytes at offsets `start..end` — is produced only
when additionally `start ≤ end`; an inverted range (`end < start`)
makes the stream constructor throw and the handler answer 500. -/
theorem stream_range_amended (content : List Nat) (r : String) (st en : Int)
    (hparse : parseRangeHeader (content.length : Int) r = (some st, some en))
    (hst : 0 ≤ st) :
    ((content.length : Int) ≤ st ∨ (content.length : Int) ≤ en →
        serveStream content (some r) = .notSatisfiable416) ∧
    (st < (content.length : Int) → en < (content.length : Int) → st ≤ en →
        serveStream content (some r) =
          .ok206 ("bytes " ++ toString st ++ "-" ++ toString en ++ "/" ++
              toString ((content.length : Int)))
            (en - st + 1) ((content.drop st.toNat).take (en - st + 1).toNat) ∧
        ((content.drop st.toNat).take (en - st + 1).toNat).length = (en - st + 1).toNat ∧
        (∀ i : Nat, i < (en - st + 1).toNat →
            ((content.drop st.toNat).take (en - st + 1).toNat)[i]? =
              content[st.toNat + i]?)) ∧
    (en < st → st < (content.length : Int) →
        serveStream content (some r) = .internalError500) := by
  refine ⟨?_, ?_, ?_⟩
  · intro hcase
    simp only [serveStream, hparse]
    rw [if_pos]
    rcases hcase with h | h
    · exact Or.inl (by simp [jsGE]; omega)
    · exact Or.inr (by simp [jsGE]; omega)
  · intro hstL henL hle
    have hnot : ¬(jsGE (some st) (content.length : Int) = true ∨
        jsGE (some en) (content.length : Int) = true) := by
      simp [jsGE]; omega
    have hcr : createReadStream content (some st) (some en) =
        .ok (st, en, (content.drop st.toNat).take (en - st + 1).toNat) := by
      simp only [createReadStream]
      rw [if_pos]
      exact ⟨hst, le_trans hst hle, hle⟩
    refine ⟨?_, ?_, ?_⟩
    · simp only [serveStream, hparse]
      rw [if_neg hnot, hcr]
    · simp only [List.length_take, List.length_drop]
      omega
    · intro i hi
      rw [List.getElem?_take_of_lt hi, List.getElem?_drop]
  · intro hinv hstL
    have hnot : ¬(jsGE (some st) (content.length : Int) = true ∨
        jsGE (some en) (content.length : Int) = true) := by
      simp [jsGE]; omega
    have hcr : createReadStream content (some st) (some en) = .error () := by
      simp only [createReadStream]
      rw [if_neg]
      omega
    simp only [serveStream, hparse]
    rw [if_neg hnot, hcr]

/-- Witness for the amended C2: the specification's own 1000-byte
example, `Range: bytes=200-299`. -/
theorem stream_range_amended_witness :
    (parseRangeHeader ((List.replicate 1000 7 : List Nat).length : Int) "bytes=200-299"
        = (some 200, some 299) ∧ (0 : Int) ≤ 200) ∧
    serveStream (List.replicate 1000 7) (some "bytes=200-299")
        = .ok206 "bytes 200-299/1000" 100 (List.replicate 100 7) := by
  refine ⟨⟨by decide, by decide⟩, ?_⟩
  have h := ((stream_range_amended (List.replicate 1000 7) "bytes=200-299" 200 299
    (by decide) (by decide)).2.1 (by decide) (by decide) (by decide)).1
  exact h.trans (by decide)

/-- C10: the 416 answer is produced exactly when the parsed `start` or
parsed `end` is at least the file size under JavaScript comparison
semantics (`NaN` compares false); an inverted in-bounds range is not
answered 416 (the handler answers 500 instead), and a suffix range
`bytes=-N`, whose `start` parses as `NaN`, is answered 500 — neither
416 nor the last `N` bytes. -/
theorem range_416_characterisation :
    (∀ (content : List Nat) (r : String),
        serveStream content (some r) = .notSatisfiable416 ↔
          (jsGE (parseRangeHeader (content.length : Int) r).1 (content.length : Int) = true ∨
           jsGE (parseRangeHeader (content.length : Int) r).2 (content.length : Int) = true)) ∧
    (∀ (content : List Nat) (r : String) (st en : Int),
        parseRangeHeader (content.length : Int) r = (some st, some en) →
        en < st → st < (content.length : Int) →
        serveStream content (some r) ≠ .notSatisfiable416) ∧
    serveStream (List.replicate 10 7) (some "bytes=-4") = .internalError500 := by
  refine ⟨?_, ?_, by decide⟩
  · intro content r
    simp only [serveStream]
    by_cases hcond : (jsGE (parseRangeHeader (content.length : Int) r).1 (content.length : Int) = true ∨
        jsGE (parseRangeHeader (content.length : Int) r).2 (content.length : Int) = true)
    · rw [if_pos hcond]
      simp [hcond]
    · rw [if_neg hcond]
      cases hcr : createReadStream content (parseRangeHeader (content.length : Int) r).1
          (parseRangeHeader (content.length : Int) r).2 with
      | error u => simp [hcond]
      | ok v => simp [hcond]
  · intro content r st en hparse hinv hstL
    have hnot : ¬(jsGE (some st) (content.length : Int) = true ∨
        jsGE (some en) (content.length : Int) = true) := by
      simp [jsGE]; omega
    have hcr : createReadStream content (some st) (some en) = .error () := by
      simp only [createReadStream]
      rw [if_neg]
      omega
    simp only [serveStream, hparse]
    rw [if_neg hnot, hcr]
    simp

/-- Witness for C10 at a concrete inverted in-bounds range on a
12-byte file. -/
theorem range_416_characterisation_witness :
    (parseRangeHeader ((List.replicate 12 5 : List Nat).length : Int) "bytes=9-4"
        = (some 9, some 4) ∧ (4 : Int) < 9 ∧
     (9 : Int) < ((List.replicate 12 5 : List Nat).length : Int)) ∧
    serveStream (List.replicate 12 5) (some "bytes=9-4") ≠ .notSatisfiable416 :=
  ⟨⟨by decide, by decide, by decide⟩,
   range_416_characterisation.2.1 (List.replicate 12 5) "bytes=9-4" 9 4
     (by decide) (by decide) (by decide)⟩

theorem walkEntries_append (l1 l2 : List (String × FSNode)) (base : String) :
    walkEntries (l1 ++ l2) base = walkEntries l1 base ++ walkEntries l2 base := by
  induction l1 with
  | nil => rw [List.nil_append, walkEntries_nil, List.nil_append]
  | cons e rest ih =>
    obtain ⟨item, child⟩ := e
    rw [List.cons_append, walkEntries_cons, walkEntries_cons, ih, List.append_assoc]

mutual

theorem walk_allGood : ∀ (t : FSNode) (base : String), allGood t = true →
    walkDirectory t base = fullListing t base
  | .file sz stOk, base, _ => by
    rw [walkDirectory_file, fullListing_file]
  | .dir entries st rd, base, h => by
    rw [allGood_dir, Bool.and_eq_true, Bool.and_eq_true] at h
    obtain ⟨⟨-, hrd⟩, hentries⟩ := h
    subst hrd
    rw [walkDirectory_dir, if_pos rfl, fullListing_dir]
    exact walkEntries_allGood entries base hentries

theorem walkEntries_allGood : ∀ (l : List (String × FSNode)) (base : String),
    allGoodEntries l = true → walkEntries l base = fullListingEntries l base
  | [], base, _ => by rw [walkEntries_nil, fullListingEntries_nil]
  | (item, child) :: rest, base, h => by
    rw [allGoodEntries_cons, Bool.and_eq_true] at h
    obtain ⟨hchild, hrest⟩ := h
    rw [walkEntries_cons, fullListingEntries_cons,
      walkEntries_allGood rest base hrest]
    cases child with
    | file sz stOk =>
      rw [allGood_file] at hchild
      subst hchild
      rw [entryRows_file, if_pos rfl, fullEntryRows_file]
    | dir entries stOk readOk =>
      have hst : stOk = true := by
        have h' := hchild
        rw [allGood_dir, Bool.and_eq_true, Bool.and_eq_true] at h'
        exact h'.1.1
      subst hst
      rw [entryRows_dir, if_pos rfl, fullEntryRows_dir,
        walk_allGood (.dir entries true readOk) (joinRel base item) hchild]

end

/-- C9: the recursive walker lists one row (name, relative path, size,
download URL) for every file of a fully readable tree, and an entry
whose stat fails or whose directory read fails is skipped on its own:
removing such an entry from a directory does not change the walk — the
rest of the listing is still produced, never an exception (the walker
is a total function) nor an empty overall result. -/
theorem walker_skips_only_failures (t bad : FSNode)
    (pre post : List (String × FSNode)) (name base base' : String) (st : Bool)
    (hgood : allGood t = true) (hbad : entryFails bad = true) :
    walkDirectory t base = fullListing t base ∧
    walkDirectory (.dir (pre ++ (name, bad) :: post) st true) base' =
      walkDirectory (.dir (pre ++ post) st true) base' := by
  refine ⟨walk_allGood t base hgood, ?_⟩
  have hmid : entryRows name bad base' = [] := by
    cases bad with
    | file sz stOk =>
      rw [entryFails, Bool.not_eq_true'] at hbad
      subst hbad
      rw [entryRows_file, if_neg (by simp)]
    | dir entries stOk readOk =>
      rw [entryFails] at hbad
      cases stOk with
      | false => rw [entryRows_dir, if_neg (by simp)]
      | true =>
        simp only [Bool.not_true, Bool.false_or, Bool.not_eq_true'] at hbad
        subst hbad
        rw [entryRows_dir, if_pos rfl, walkDirectory_dir, if_neg (by simp)]
  rw [walkDirectory_dir, if_pos rfl, walkDirectory_dir, if_pos rfl,
    walkEntries_append, walkEntries_append, walkEntries_cons, hmid, List.nil_append]

/-- Witness for C9: a tree with one good subtree, one good file, an
unreadable subdirectory and a stat-failed file; the walk equals the walk
with the failing entries removed, and a fully good tree lists every
file. -/
theorem walker_skips_only_failures_witness :
    (allGood (.dir [("a", .dir [("b.txt", .file 10 true)] true true),
        ("c.mp4", .file 5 true)] true true) = true ∧
     entryFails (.dir [("x.txt", .file 1 true)] true false) = true) ∧
    (walkDirectory (.dir [("a", .dir [("b.txt", .file 10 true)] true true),
        ("c.mp4", .file 5 true)] true true) "" =
      fullListing (.dir [("a", .dir [("b.txt", .file 10 true)] true true),
        ("c.mp4", .file 5 true)] true true) "" ∧
     walkDirectory (.dir ([("a", .dir [("b.txt", .file 10 true)] true true)] ++
        ("bad", .dir [("x.txt", .file 1 true)] true false) ::
        [("c.mp4", .file 5 true)]) true true) "" =
      walkDirectory (.dir ([("a", .dir [("b.txt", .file 10 true)] true true)] ++
        [("c.mp4", .file 5 true)]) true true) "") :=
  ⟨⟨by decide, by decide⟩,
   walker_skips_only_failures
     (.dir [("a", .dir [("b.txt", .file 10 true)] true true), ("c.mp4", .file 5 true)] true true)
     (.dir [("x.txt", .file 1 true)] true false)
     [("a", .dir [("b.txt", .file 10 true)] true true)]
     [("c.mp4", .file 5 true)]
     "bad" "" "" true (by decide) (by decide)⟩

end TorrentServer
